import Mathlib

/-!
Verification development for the minimal Forth-style interpreter in `main.py`.

Representation convention. The Python code keeps the program as a list with
the first word LAST ("reversed"), popping the next word with `list.pop()`
(which removes the last element) and appending expansions with `+=`.  We embed
every Python list through the order-reversing bijection: the Lean list's HEAD
is the Python list's END.  Under this bijection
  - `program.pop()`            becomes taking the head,
  - `list.append(x)`           becomes `x :: l`,
  - `program += body`          becomes `bodyFlipped ++ program`,
  - `program[-1]`              becomes the head,
  - `definition.reverse()`     becomes `List.reverse`.
Consequently a Lean program list reads in logical (source) order, head =
next word to execute; a Lean value-stack list has the top of stack at its
head; a stored definition body reads in logical forward order.

Errors. The Python process dies in one of three ways, which we label by crash
site, matching the spec's error kinds: `sys.exit(1)` after printing
`Unknown word ...` (UnknownWord); an uncaught `IndexError` from popping the
value stack inside a builtin (StackUnderflow, which carries the builtin's
token as the traceback identifies the failing operation); an uncaught
`IndexError` from exhausting the program inside `define` while scanning for
the terminator `;` (UnterminatedDefinition).  An `IndexError` from `unless`
popping an empty program is a fourth, distinct crash site (ProgramUnderflow).
-/

/-- Runtime values: Python `int` and `bool`.  Only these two types ever reach
the stack in `main.py` (integer literals, and booleans produced by `==`). -/
inductive Value where
  | int (n : Int)
  | bool (b : Bool)
  deriving DecidableEq, Repr

/-- Python coerces `bool` to `int` in arithmetic: `True` is 1, `False` is 0
(`bool` is a subtype of `int` in the host language). -/
def Value.toInt : Value → Int
  | Value.int n => n
  | Value.bool b => if b then 1 else 0

/-- Python truthiness of a stack value, as tested by `if stack.pop():` in
`unless`: a nonzero integer or `True` is truthy. -/
def truthy : Value → Bool
  | Value.int n => n != 0
  | Value.bool b => b

/-- Tokens are whitespace-delimited words; equality is exact string match. -/
abbrev Token := String

/-- The `definitions` dict: user word name to stored body.  Bodies are kept in
the flipped representation, i.e. they read in logical forward order with the
first body token at the head (the Python code stores them reversed, matching
its reversed program representation). -/
abbrev Defs := List (Token × List Token)

/-- Failure modes of the interpreter process, labelled by crash site (see the
module docstring). -/
inductive Err where
  | unknownWord (w : Token)
  | stackUnderflow (op : Token)
  | unterminatedDefinition
  | programUnderflow (op : Token)
  deriving DecidableEq, Repr

/-- Result of an interpretation run: the final value stack, definitions map
and output trace (values printed by `print`, most recent first), or the error
that killed the process. -/
inductive Res where
  | ok (stack : List Value) (defs : Defs) (out : List Value)
  | err (e : Err)
  deriving DecidableEq, Repr

/-- Type of a builtin: it receives the remaining program and the stack (as in
Python) together with the definitions map and output trace (globals in
Python), and either returns the updated state or crashes. -/
abbrev BuiltinFn :=
  List Token → List Value → Defs → List Value →
    Except Err (List Token × List Value × Defs × List Value)

/-- Builtin `+`: `lambda p, stack: stack.append(stack.pop() + stack.pop())`.
Pops `b` then `a` and pushes `b + a` with Python's bool-to-int coercion. -/
def addB : BuiltinFn := fun p s d o =>
  match s with
  | b :: a :: s' => Except.ok (p, Value.int (Value.toInt b + Value.toInt a) :: s', d, o)
  | _ => Except.error (Err.stackUnderflow "+")

/-- Builtin `*`: `lambda p, stack: stack.append(stack.pop() * stack.pop())`. -/
def mulB : BuiltinFn := fun p s d o =>
  match s with
  | b :: a :: s' => Except.ok (p, Value.int (Value.toInt b * Value.toInt a) :: s', d, o)
  | _ => Except.error (Err.stackUnderflow "*")

/-- Builtin `-` (`def subtract`): pops the subtrahend, then the minuend, and
pushes minuend - subtrahend. -/
def subtract : BuiltinFn := fun p s d o =>
  match s with
  | subtrahend :: minuend :: s' =>
      Except.ok (p, Value.int (Value.toInt minuend - Value.toInt subtrahend) :: s', d, o)
  | _ => Except.error (Err.stackUnderflow "-")

/-- Builtin `dup` (`def dup`): pops a value and pushes it twice. -/
def dup : BuiltinFn := fun p s d o =>
  match s with
  | v :: s' => Except.ok (p, v :: v :: s', d, o)
  | _ => Except.error (Err.stackUnderflow "dup")

/-- Scan of `define`'s collection loop:
`while program[-1] != ';': definition.append(program.pop())` followed by the
discarding `program.pop()`.  The accumulator plays the Python `definition`
list's role (append = cons under the flip).  Returns the accumulated body
(still backwards, exactly as in Python before its `.reverse()`) and the
program after the discarded `;`; crashes with the UnterminatedDefinition
`IndexError` if the program empties first. -/
def scanDefinition (definition : List Token) :
    List Token → Except Err (List Token × List Token)
  | [] => Except.error Err.unterminatedDefinition
  | t :: p => if t = ";" then Except.ok (definition, p) else scanDefinition (t :: definition) p

/-- Key update of the `definitions` dict: `definitions[name] = definition`
replaces any previous binding of `name`. -/
def dictInsert (k : Token) (v : List Token) (d : Defs) : Defs :=
  (k, v) :: d.filter (fun kv => !(kv.1 == k))

/-- Builtin `:` (`def define`): pops the next token as the name, collects body
tokens until the terminator `;` (discarded), reverses the collected body
(`definition.reverse()`) and stores it in the definitions map. -/
def define : BuiltinFn := fun p s d o =>
  match p with
  | [] => Except.error Err.unterminatedDefinition
  | name :: p' =>
      match scanDefinition [] p' with
      | Except.error e => Except.error e
      | Except.ok (defn, p'') => Except.ok (p'', s, dictInsert name defn.reverse d, o)

/-- Builtin `unless` (`def unless`; named differently because `unless` is a
Lean keyword): pops the condition; if it is truthy, pops (discards) one token
from the program without executing it. -/
def unlessB : BuiltinFn := fun p s d o =>
  match s with
  | c :: s' =>
      if truthy c then
        match p with
        | _ :: p' => Except.ok (p', s', d, o)
        | [] => Except.error (Err.programUnderflow "unless")
      else Except.ok (p, s', d, o)
  | [] => Except.error (Err.stackUnderflow "unless")

/-- Builtin `==`: `lambda p, stack: stack.append(stack.pop() == stack.pop())`.
Python compares `int` and `bool` numerically (`1 == True`). -/
def eqB : BuiltinFn := fun p s d o =>
  match s with
  | b :: a :: s' => Except.ok (p, Value.bool (Value.toInt b == Value.toInt a) :: s', d, o)
  | _ => Except.error (Err.stackUnderflow "==")

/-- Builtin `print`: `lambda p, stack: print(stack.pop())`; the printed value
is recorded on the output trace. -/
def printB : BuiltinFn := fun p s d o =>
  match s with
  | v :: s' => Except.ok (p, s', d, v :: o)
  | [] => Except.error (Err.stackUnderflow "print")

/-- The `builtins` dict, with entries in the registration order of the
source: `+`, `*`, `-`, `dup`, `:`, `unless`, `==`, `print`. -/
def builtins : List (Token × BuiltinFn) :=
  [("+", addB), ("*", mulB), ("-", subtract), ("dup", dup),
   (":", define), ("unless", unlessB), ("==", eqB), ("print", printB)]

/-- Model of Python `str.isnumeric()` at the ASCII level (tokens of the
repository's programs are ASCII): nonempty and all characters decimal
digits.  (`"".isnumeric()` is `False` in Python.) -/
def pyIsNumeric (w : Token) : Bool := !w.data.isEmpty && w.data.all Char.isDigit

/-- Model of Python `int(w)` on a string of decimal digits. -/
def parseInt (w : Token) : Int :=
  Int.ofNat (w.data.foldl (fun a c => 10 * a + (c.toNat - 48)) 0)

/-- The dispatch loop `interpret(program, stack)`.  `fuel` bounds the number
of loop iterations (the Python loop can diverge through recursive
definitions); `none` means the fuel ran out.  Each iteration pops the next
word and resolves it: user definitions first (prepending a copy of the body),
then builtins, then integer literals, else the UnknownWord failure. -/
def interpret : Nat → List Token → List Value → Defs → List Value → Option Res
  | 0, _, _, _, _ => none
  | _ + 1, [], stack, defs, out => some (Res.ok stack defs out)
  | fuel + 1, word :: p, stack, defs, out =>
      match defs.lookup word with
      | some body => interpret fuel (body ++ p) stack defs out
      | none =>
          match builtins.lookup word with
          | some f =>
              match f p stack defs out with
              | Except.ok (p', s', d', o') => interpret fuel p' s' d' o'
              | Except.error e => some (Res.err e)
          | none =>
              if pyIsNumeric word then
                interpret fuel p (Value.int (parseInt word) :: stack) defs out
              else some (Res.err (Err.unknownWord word))

/-- Run a program (given in logical source order) from the process-start
state: empty stack, empty definitions, no output. -/
def run (fuel : Nat) (program : List Token) : Option Res :=
  interpret fuel program [] [] []

/-- Final value stack of a successful run (top of stack at the head). -/
def finalStack (fuel : Nat) (program : List Token) : Option (List Value) :=
  match run fuel program with
  | some (Res.ok s _ _) => some s
  | _ => none

/-- Loop of the `__main__` driver, modelled faithfully: for each of the `n`
command-line files it re-reads `sys.argv[1]` (the loop body opens
`sys.argv[1]`, not the loop variable `file`), and calls `interpret(program)`
whose `stack=[]` default argument is a single list object shared across
calls, so the stack (like the definitions map) threads from one call to the
next.  Collects the stack printed after each call. -/
def driverLoop (fuel : Nat) (firstFile : List Token) :
    Nat → List Value → Defs → List Value → Option (List (List Value))
  | 0, _, _, _ => some []
  | n + 1, stack, defs, out =>
      match interpret fuel firstFile stack defs out with
      | some (Res.ok s' d' o') =>
          match driverLoop fuel firstFile n s' d' o' with
          | some rest => some (s' :: rest)
          | none => none
      | _ => none

/-- The `__main__` driver on a list of tokenized command-line files: with no
files it only prints help; otherwise it iterates once per file (interpreting
`sys.argv[1]` each time, per the loop body). -/
def driver (fuel : Nat) (files : List (List Token)) : Option (List (List Value)) :=
  match files with
  | [] => some []
  | first :: _ => driverLoop fuel first files.length [] [] []

/-- Modelled from the spec (for the refinement claim C4): one step of
standard postfix evaluation over the integers, on programs made only of
non-negative integer literals and `+`, `*`, `-`; an operator finding fewer
than two values, or any other token, is a failure of well-formedness. -/
def postfixStep (s : List Int) (t : Token) : Option (List Int) :=
  if t = "+" then
    match s with
    | b :: a :: r => some ((a + b) :: r)
    | _ => none
  else if t = "*" then
    match s with
    | b :: a :: r => some ((a * b) :: r)
    | _ => none
  else if t = "-" then
    match s with
    | b :: a :: r => some ((a - b) :: r)
    | _ => none
  else if pyIsNumeric t then some (parseInt t :: s)
  else none

/-- Modelled from the spec: evaluation of a whole postfix expression,
left to right, starting from an empty stack. -/
def postfixEval (p : List Token) : Option (List Int) :=
  p.foldlM postfixStep []

/-- Dispatch step on a user-defined word: the stored body is prepended
(copied) to the remaining program. -/
theorem interpret_cons_def (fuel : Nat) (w : Token) (body p : List Token)
    (s : List Value) (d : Defs) (o : List Value) (hd : d.lookup w = some body) :
    interpret (fuel + 1) (w :: p) s d o = interpret fuel (body ++ p) s d o := by
  simp [interpret, hd]

/-- Dispatch step on a builtin word: the builtin runs on the popped-word
program; an error result halts interpretation. -/
theorem interpret_cons_builtin (fuel : Nat) (w : Token) (p : List Token)
    (s : List Value) (d : Defs) (o : List Value) (bf : BuiltinFn)
    (hd : d.lookup w = none) (hb : builtins.lookup w = some bf) :
    interpret (fuel + 1) (w :: p) s d o =
      match bf p s d o with
      | Except.ok (p', s', d', o') => interpret fuel p' s' d' o'
      | Except.error e => some (Res.err e) := by
  simp [interpret, hd, hb]

/-- Dispatch step on an integer literal: its value is pushed. -/
theorem interpret_cons_num (fuel : Nat) (w : Token) (p : List Token)
    (s : List Value) (d : Defs) (o : List Value)
    (hd : d.lookup w = none) (hb : builtins.lookup w = none) (hn : pyIsNumeric w = true) :
    interpret (fuel + 1) (w :: p) s d o =
      interpret fuel p (Value.int (parseInt w) :: s) d o := by
  simp [interpret, hd, hb, hn]

/-- Dispatch step on an unresolvable word: the UnknownWord failure. -/
theorem interpret_cons_unknown (fuel : Nat) (w : Token) (p : List Token)
    (s : List Value) (d : Defs) (o : List Value)
    (hd : d.lookup w = none) (hb : builtins.lookup w = none) (hn : pyIsNumeric w = false) :
    interpret (fuel + 1) (w :: p) s d o = some (Res.err (Err.unknownWord w)) := by
  simp [interpret, hd, hb, hn]

/-- Tokens made of digits are distinct from any token containing a
non-digit. -/
theorem key_ne_of_digits (w k : Token) (h : pyIsNumeric w = true) (hk : pyIsNumeric k = false) :
    (w == k) = false := by
  apply beq_eq_false_iff_ne.mpr
  intro e
  subst e
  rw [h] at hk
  exact absurd hk (by decide)

/-- Integer-literal tokens are never keys of the builtins dict. -/
theorem builtins_lookup_of_digits (w : Token) (h : pyIsNumeric w = true) :
    builtins.lookup w = none := by
  simp only [builtins, List.lookup,
    key_ne_of_digits w "+" h (by decide), key_ne_of_digits w "*" h (by decide),
    key_ne_of_digits w "-" h (by decide), key_ne_of_digits w "dup" h (by decide),
    key_ne_of_digits w ":" h (by decide), key_ne_of_digits w "unless" h (by decide),
    key_ne_of_digits w "==" h (by decide), key_ne_of_digits w "print" h (by decide)]

/-- The terminator scan crashes when no `;` remains in the program. -/
theorem scanDefinition_no_semi (p : List Token) (hp : ";" ∉ p) (acc : List Token) :
    scanDefinition acc p = Except.error Err.unterminatedDefinition := by
  induction p generalizing acc with
  | nil => rfl
  | cons t p ih =>
      have ht : ¬ (t = ";") := by
        intro e
        exact hp (by simp [e])
      have hp' : ";" ∉ p := fun m => hp (List.mem_cons_of_mem t m)
      simp only [scanDefinition, if_neg ht]
      exact ih hp' _

/-- The terminator scan collects exactly the tokens before the first `;`,
discards the `;`, and leaves the rest of the program. -/
theorem scanDefinition_semi (body rest acc : List Token) (hb : ";" ∉ body) :
    scanDefinition acc (body ++ ";" :: rest) = Except.ok (body.reverse ++ acc, rest) := by
  induction body generalizing acc with
  | nil => simp [scanDefinition]
  | cons t b ih =>
      have ht : ¬ (t = ";") := by
        intro e
        exact hb (by simp [e])
      have hb' : ";" ∉ b := fun m => hb (List.mem_cons_of_mem t m)
      simp only [List.cons_append, scanDefinition, if_neg ht, List.append_eq]
      rw [ih _ hb']
      simp

/-- C1, counterexample: the claim's concrete predictions are false.  `unless`
pops the TOP of the stack as its condition, so in `1 2 unless 99` the
condition is 2 (not 1) and the final stack is `[1]` (not `[2]`), and in
`0 2 unless 99` the condition is again 2 (truthy), so `99` is skipped and the
final stack is `[0]` (not `[2, 99]`).  Stacks are written top-first, so the
claimed Python stack `[2]` is `[Value.int 2]` and `[2, 99]` is
`[Value.int 99, Value.int 2]`. -/
theorem c1_counterexample :
    ¬ (finalStack 9 ["1", "2", "unless", "99"] = some [Value.int 2]
       ∧ finalStack 9 ["0", "2", "unless", "99"] = some [Value.int 99, Value.int 2]) := by
  decide

/-- C1 (amended): executing `unless` pops exactly one condition value — the
top of the Value Stack, i.e. the most recently pushed value.  If the
condition is truthy it removes exactly one additional, unexpanded token from
the Program Cursor without executing it; if falsy it removes nothing, so the
next token executes normally.  Concretely (stacks top-first):
`1 2 unless 99` pops condition 2 (truthy) and finishes with stack `[1]`;
`0 2 unless 99` also pops 2 and finishes with `[0]`; the falsy path is shown
by `2 0 unless 99`, which finishes with Python stack `[2, 99]`. -/
theorem c1_unless_semantics (fuel : Nat) (d : Defs) (s o : List Value) (c : Value)
    (w : Token) (rest : List Token) (hd : d.lookup "unless" = none) :
    (truthy c = true →
      interpret (fuel + 1) ("unless" :: w :: rest) (c :: s) d o = interpret fuel rest s d o)
    ∧ (truthy c = false →
      interpret (fuel + 1) ("unless" :: w :: rest) (c :: s) d o = interpret fuel (w :: rest) s d o)
    ∧ finalStack 9 ["1", "2", "unless", "99"] = some [Value.int 1]
    ∧ finalStack 9 ["0", "2", "unless", "99"] = some [Value.int 0]
    ∧ finalStack 9 ["2", "0", "unless", "99"] = some [Value.int 99, Value.int 2] := by
  refine ⟨?_, ?_, by decide, by decide, by decide⟩
  · intro h
    rw [interpret_cons_builtin fuel "unless" (w :: rest) (c :: s) d o unlessB hd rfl]
    simp [unlessB, h]
  · intro h
    rw [interpret_cons_builtin fuel "unless" (w :: rest) (c :: s) d o unlessB hd rfl]
    simp [unlessB, h]

/-- C1, witness: the truthy case of `c1_unless_semantics` at condition 1 with
next token `99`. -/
theorem c1_witness :
    interpret 4 ["unless", "99"] [Value.int 1] [] [] = interpret 3 [] [] [] [] :=
  (c1_unless_semantics 3 [] [] [] (Value.int 1) "99" [] rfl).1 rfl

/-- C2: invoking a stored definition is behaviorally identical to textually
inlining its body: one dispatch step on the word leaves exactly the body's
tokens prepended (in order) to the tokens that followed the word, the
reachable results (for some fuel) of invoking and of inlining coincide, and
after `: sq dup * ;` the programs `5 sq` and `5 dup *` produce the same final
Value Stack, `[25]`. -/
theorem c2_definition_inlining (w : Token) (body rest : List Token) (s o : List Value)
    (d : Defs) (hd : d.lookup w = some body) :
    (∀ fuel, interpret (fuel + 1) (w :: rest) s d o = interpret fuel (body ++ rest) s d o)
    ∧ (∀ r : Res, (∃ fuel, interpret fuel (w :: rest) s d o = some r)
        ↔ (∃ fuel, interpret fuel (body ++ rest) s d o = some r))
    ∧ finalStack 9 [":", "sq", "dup", "*", ";", "5", "sq"] = some [Value.int 25]
    ∧ finalStack 9 ["5", "dup", "*"] = some [Value.int 25] := by
  refine ⟨fun fuel => interpret_cons_def fuel w body rest s d o hd, ?_, by decide, by decide⟩
  intro r
  constructor
  · rintro ⟨fuel, hf⟩
    match fuel with
    | 0 => simp [interpret] at hf
    | fuel + 1 =>
        rw [interpret_cons_def fuel w body rest s d o hd] at hf
        exact ⟨fuel, hf⟩
  · rintro ⟨fuel, hf⟩
    exact ⟨fuel + 1, by rw [interpret_cons_def fuel w body rest s d o hd]; exact hf⟩

/-- C2, witness: `c2_definition_inlining` at the definition `sq` with body
`dup *` and the stack `[5]`. -/
theorem c2_witness :
    interpret 3 ["sq"] [Value.int 5] [("sq", ["dup", "*"])] []
      = interpret 2 ["dup", "*"] [Value.int 5] [("sq", ["dup", "*"])] [] :=
  (c2_definition_inlining "sq" ["dup", "*"] [] [Value.int 5] [] [("sq", ["dup", "*"])] rfl).1 2

/-- C3: the dispatch order is fixed: user Definitions first (even when the
word is also a builtin), then Builtins, then integer-literal parsing, then
the UnknownWord failure; consequently a user redefinition of a builtin name
is used for every subsequent lookup, e.g. after `: dup 7 ;` the program
`5 dup` leaves the Python stack `[5, 7]` (top-first `[7, 5]`), not the
builtin `dup`'s `[5, 5]`. -/
theorem c3_lookup_precedence (fuel : Nat) (w : Token) (p : List Token) (s : List Value)
    (d : Defs) (o : List Value) :
    (∀ body bf, d.lookup w = some body → builtins.lookup w = some bf →
        interpret (fuel + 1) (w :: p) s d o = interpret fuel (body ++ p) s d o)
    ∧ (∀ bf p' s' d' o', d.lookup w = none → builtins.lookup w = some bf →
        bf p s d o = Except.ok (p', s', d', o') →
        interpret (fuel + 1) (w :: p) s d o = interpret fuel p' s' d' o')
    ∧ (d.lookup w = none → builtins.lookup w = none → pyIsNumeric w = true →
        interpret (fuel + 1) (w :: p) s d o = interpret fuel p (Value.int (parseInt w) :: s) d o)
    ∧ (d.lookup w = none → builtins.lookup w = none → pyIsNumeric w = false →
        interpret (fuel + 1) (w :: p) s d o = some (Res.err (Err.unknownWord w)))
    ∧ finalStack 9 [":", "dup", "7", ";", "5", "dup"] = some [Value.int 7, Value.int 5] := by
  refine ⟨?_, ?_, interpret_cons_num fuel w p s d o, interpret_cons_unknown fuel w p s d o,
    by decide⟩
  · intro body bf hd _
    exact interpret_cons_def fuel w body p s d o hd
  · intro bf p' s' d' o' hd hb hok
    rw [interpret_cons_builtin fuel w p s d o bf hd hb, hok]

/-- C3, witness: the word `dup` — also a builtin — redefined to the body
`7` is resolved through the user definition. -/
theorem c3_witness :
    interpret 3 ["dup"] [Value.int 5] [("dup", ["7"])] []
      = interpret 2 ["7"] [Value.int 5] [("dup", ["7"])] [] :=
  (c3_lookup_precedence 2 "dup" [] [Value.int 5] [("dup", ["7"])] []).1 ["7"] dup rfl rfl

/-- Refinement induction for C4: running the interpreter from any
integer-only stack agrees with the spec's postfix evaluation, token by
token. -/
theorem c4_aux (p : List Token) : ∀ (σ s : List Int),
    List.foldlM postfixStep σ p = some s →
    interpret (p.length + 1) p (σ.map Value.int) [] [] =
      some (Res.ok (s.map Value.int) [] []) := by
  induction p with
  | nil =>
      intro σ s h
      simp [List.foldlM] at h
      subst h
      rfl
  | cons t p ih =>
      intro σ s h
      simp only [List.foldlM] at h
      cases hstep : postfixStep σ t with
      | none => rw [hstep] at h; simp at h
      | some σ' =>
          rw [hstep] at h
          simp only [Option.bind_eq_bind, Option.some_bind] at h
          by_cases h1 : t = "+"
          · subst h1
            rcases σ with _ | ⟨b, _ | ⟨a, r⟩⟩ <;> simp [postfixStep] at hstep
            subst hstep
            simp only [List.length_cons, List.map_cons]
            rw [interpret_cons_builtin (p.length + 1) "+" p _ [] [] addB rfl rfl]
            simp only [addB, Value.toInt, List.map_cons]
            rw [Int.add_comm b a]
            exact ih ((a + b) :: r) s h
          · by_cases h2 : t = "*"
            · subst h2
              rcases σ with _ | ⟨b, _ | ⟨a, r⟩⟩ <;> simp [postfixStep] at hstep
              subst hstep
              simp only [List.length_cons, List.map_cons]
              rw [interpret_cons_builtin (p.length + 1) "*" p _ [] [] mulB rfl rfl]
              simp only [mulB, Value.toInt, List.map_cons]
              rw [Int.mul_comm b a]
              exact ih ((a * b) :: r) s h
            · by_cases h3 : t = "-"
              · subst h3
                rcases σ with _ | ⟨b, _ | ⟨a, r⟩⟩ <;> simp [postfixStep] at hstep
                subst hstep
                simp only [List.length_cons, List.map_cons]
                rw [interpret_cons_builtin (p.length + 1) "-" p _ [] [] subtract rfl rfl]
                simp only [subtract, Value.toInt, List.map_cons]
                exact ih ((a - b) :: r) s h
              · have hnum : pyIsNumeric t = true := by
                  by_contra hn
                  simp [postfixStep, h1, h2, h3, hn] at hstep
                simp [postfixStep, h1, h2, h3, hnum] at hstep
                subst hstep
                simp only [List.length_cons]
                rw [interpret_cons_num (p.length + 1) t p _ [] [] rfl
                  (builtins_lookup_of_digits t hnum) hnum]
                exact ih (parseInt t :: σ) s h

/-- C4: every program of integer literals and `+`, `*`, `-` that is a
well-formed postfix expression (the spec-side evaluator `postfixEval`
succeeds, i.e. every operator finds at least two values) leaves exactly the
integer stack computed by standard postfix arithmetic; in particular `-`
pops the subtrahend first, so `3 2 -` leaves 1. -/
theorem c4_postfix_arithmetic (p : List Token) (s : List Int)
    (h : postfixEval p = some s) :
    interpret (p.length + 1) p [] [] [] = some (Res.ok (s.map Value.int) [] [])
    ∧ finalStack 4 ["3", "2", "-"] = some [Value.int 1] :=
  ⟨c4_aux p [] s h, by decide⟩

/-- C4, witness: `c4_postfix_arithmetic` on the program `3 2 -`. -/
theorem c4_witness :
    interpret 4 ["3", "2", "-"] [] [] [] = some (Res.ok [Value.int 1] [] [])
    ∧ finalStack 4 ["3", "2", "-"] = some [Value.int 1] :=
  c4_postfix_arithmetic ["3", "2", "-"] [1] (by decide)

/-- C5: a (nonempty) token that is a key of neither the Definitions map nor
the Builtins map is pushed as an integer when all its characters are decimal
digits, and otherwise the run halts at once — independently of whatever
tokens follow — with the UnknownWord error naming the token.
(`str.isnumeric` is modelled at the ASCII level, where it coincides with
"all characters are decimal digits"; tokens produced by the whitespace
tokenizer are never empty.) -/
theorem c5_literal_or_unknown (fuel : Nat) (w : Token) (p : List Token) (s : List Value)
    (d : Defs) (o : List Value) (hd : d.lookup w = none) (hb : builtins.lookup w = none)
    (hne : w ≠ "") :
    (w.data.all Char.isDigit = true →
      interpret (fuel + 1) (w :: p) s d o = interpret fuel p (Value.int (parseInt w) :: s) d o)
    ∧ (w.data.all Char.isDigit = false →
      interpret (fuel + 1) (w :: p) s d o = some (Res.err (Err.unknownWord w))) := by
  have hempty : w.data.isEmpty = false := by
    cases w with
    | mk l =>
        cases l with
        | nil => exact absurd rfl hne
        | cons c cs => rfl
  constructor
  · intro hdig
    exact interpret_cons_num fuel w p s d o hd hb (by simp [pyIsNumeric, hempty, hdig])
  · intro hdig
    exact interpret_cons_unknown fuel w p s d o hd hb (by simp [pyIsNumeric, hempty, hdig])

/-- C5, witness: the literal branch of `c5_literal_or_unknown` at the token
`12`. -/
theorem c5_witness :
    interpret 3 ["12", "+"] [] [] [] = interpret 2 ["+"] [Value.int (parseInt "12")] [] [] :=
  (c5_literal_or_unknown 2 "12" ["+"] [] [] [] rfl rfl (by decide)).1 (by decide)

/-- C6: if the Program Cursor runs out of tokens while `:` scans for the
terminator `;` (including when even the name is missing), interpretation
fails with the UnterminatedDefinition failure — the crash in `define`'s
collection loop — rather than silently truncating the definition. -/
theorem c6_unterminated_definition (fuel : Nat) (p : List Token) (s : List Value)
    (d : Defs) (o : List Value) (hd : d.lookup ":" = none) (hp : ";" ∉ p) :
    interpret (fuel + 1) (":" :: p) s d o = some (Res.err Err.unterminatedDefinition) := by
  rw [interpret_cons_builtin fuel ":" p s d o define hd rfl]
  cases p with
  | nil => rfl
  | cons name p' =>
      have hp' : ";" ∉ p' := fun m => hp (List.mem_cons_of_mem name m)
      simp [define, scanDefinition_no_semi p' hp' []]

/-- C6, witness: the unterminated definition `: foo 1`. -/
theorem c6_witness :
    interpret 3 [":", "foo", "1"] [] [] [] = some (Res.err Err.unterminatedDefinition) :=
  c6_unterminated_definition 2 ["foo", "1"] [] [] [] rfl (by decide)

/-- C7: every builtin that pops more values than the Value Stack holds
(fewer than 2 for `+`, `*`, `-`, `==`; an empty stack for `dup`, `print`,
`unless`) halts interpretation at once with the StackUnderflow failure
naming the offending token, and the result does not depend on the tokens
still in the Program Cursor (none of them are consumed). -/
theorem c7_stack_underflow (fuel : Nat) (p : List Token) (d : Defs) (o : List Value) :
    (∀ op, op ∈ ["+", "*", "-", "=="] → d.lookup op = none → ∀ st : List Value,
        st.length < 2 →
        interpret (fuel + 1) (op :: p) st d o = some (Res.err (Err.stackUnderflow op)))
    ∧ (∀ op, op ∈ ["dup", "print", "unless"] → d.lookup op = none →
        interpret (fuel + 1) (op :: p) [] d o = some (Res.err (Err.stackUnderflow op))) := by
  constructor
  · intro op hop hd st hst
    rcases st with _ | ⟨v, _ | ⟨v2, tl⟩⟩
    · fin_cases hop <;> simp [interpret, hd, builtins, List.lookup, addB, mulB, subtract, eqB]
    · fin_cases hop <;> simp [interpret, hd, builtins, List.lookup, addB, mulB, subtract, eqB]
    · simp only [List.length_cons] at hst
      omega
  · intro op hop hd
    fin_cases hop <;> simp [interpret, hd, builtins, List.lookup, dup, printB, unlessB]

/-- C7, witness: `+` on the one-element stack `[5]`, with a token still
waiting in the program. -/
theorem c7_witness :
    interpret 1 ["+", "1"] [Value.int 5] [] [] = some (Res.err (Err.stackUnderflow "+")) :=
  (c7_stack_underflow 0 ["1"] [] []).1 "+" (by decide) rfl [Value.int 5] (by decide)

/-- C8: evaluation of the driver at the failing input (two files, the first
containing `1`, the second empty).  Because the loop body opens
`sys.argv[1]` for every file and `interpret`'s `stack=[]` default argument
is one shared list, the second iteration re-runs the first file on the
carried-over stack: the driver prints `[1]` then `[1, 1]` (top-first
`[Value.int 1]` and `[Value.int 1, Value.int 1]`), while a call with a fresh
empty stack on the actual second (empty) file would return `[]`. -/
theorem c8_driver_shared_stack :
    driver 4 [["1"], []] = some [[Value.int 1], [Value.int 1, Value.int 1]]
    ∧ interpret 4 [] [] [] [] = some (Res.ok [] [] []) := by
  decide

/-- C9: after `:` runs to completion on `: name t1 ... tN ; rest`, the
Definitions map binds `name` to exactly the body tokens in forward logical
order (our flipped lists read in source order), the terminating `;` is
discarded — interpretation resumes at `rest` — and a prior binding of
`name` is overwritten. -/
theorem c9_define_stores_body (fuel : Nat) (name : Token) (body rest : List Token)
    (s o : List Value) (d : Defs) (hd : d.lookup ":" = none) (hb : ";" ∉ body) :
    interpret (fuel + 1) (":" :: name :: (body ++ ";" :: rest)) s d o
      = interpret fuel rest s (dictInsert name body d) o
    ∧ (dictInsert name body d).lookup name = some body
    ∧ (∀ old, (dictInsert name body (dictInsert name old d)).lookup name = some body) := by
  refine ⟨?_, ?_, fun old => ?_⟩
  · rw [interpret_cons_builtin fuel ":" (name :: (body ++ ";" :: rest)) s d o define hd rfl]
    simp only [define, scanDefinition_semi body rest [] hb, List.append_nil,
      List.reverse_reverse]
  · simp [dictInsert, List.lookup]
  · simp [dictInsert, List.lookup]

/-- C9, witness: `c9_define_stores_body` on `: sq dup * ;`. -/
theorem c9_witness :
    interpret 2 [":", "sq", "dup", "*", ";"] [] [] []
      = interpret 1 [] [] (dictInsert "sq" ["dup", "*"] []) []
    ∧ (dictInsert "sq" ["dup", "*"] []).lookup "sq" = some ["dup", "*"]
    ∧ (∀ old, (dictInsert "sq" ["dup", "*"] (dictInsert "sq" old [])).lookup "sq"
        = some ["dup", "*"]) :=
  c9_define_stores_body 1 "sq" ["dup", "*"] [] [] [] [] rfl (by decide)

/-- C10: a Boolean operand reaching `+`, `*` or `-` raises no type error:
it is coerced to 1 (true) or 0 (false) by the host arithmetic, and
`1 1 == 1 +` finishes with top-of-stack 2. -/
theorem c10_bool_coercion (fuel : Nat) (p : List Token) (s : List Value) (d : Defs)
    (o : List Value) (b : Bool) (n : Int)
    (hp : d.lookup "+" = none) (hm : d.lookup "*" = none) (hs : d.lookup "-" = none) :
    (interpret (fuel + 1) ("+" :: p) (Value.bool b :: Value.int n :: s) d o
      = interpret fuel p (Value.int ((if b then 1 else 0) + n) :: s) d o)
    ∧ (interpret (fuel + 1) ("*" :: p) (Value.bool b :: Value.int n :: s) d o
      = interpret fuel p (Value.int ((if b then 1 else 0) * n) :: s) d o)
    ∧ (interpret (fuel + 1) ("-" :: p) (Value.bool b :: Value.int n :: s) d o
      = interpret fuel p (Value.int (n - (if b then 1 else 0)) :: s) d o)
    ∧ finalStack 9 ["1", "1", "==", "1", "+"] = some [Value.int 2] := by
  refine ⟨?_, ?_, ?_, by decide⟩
  · rw [interpret_cons_builtin fuel "+" p _ d o addB hp rfl]
    simp [addB, Value.toInt]
  · rw [interpret_cons_builtin fuel "*" p _ d o mulB hm rfl]
    simp [mulB, Value.toInt]
  · rw [interpret_cons_builtin fuel "-" p _ d o subtract hs rfl]
    simp [subtract, Value.toInt]

/-- C10, witness: `True + 1` evaluates to 2. -/
theorem c10_witness :
    interpret 2 ["+"] [Value.bool true, Value.int 1] [] []
      = interpret 1 [] [Value.int ((if true then 1 else 0) + 1)] [] [] :=
  (c10_bool_coercion 1 [] [] [] [] true 1 rfl rfl rfl).1
